import Mathlib

/-!
Verification of the NSE wireframe trading backend.

The Python sources embedded here (shallowly, over exact rational
arithmetic) are:
  - `backend/services/upstox_service.py`:
      `calculate_rsi`, `calculate_bollinger_bands`,
      `calculate_moving_averages`, `calculate_trading_signal`,
      and the two control paths of `subscribe_price_stream`
      (market-closed fallback, reconnect backoff loop).
  - `backend/services/signal_monitor.py`:
      `detect_signal_changes`, `check_and_notify`.
  - `backend/services/stop_loss_monitor.py`: `check_stop_losses`.
  - `backend/services/trade_journal.py`:
      `get_all_positions`, `get_open_trades`.

Machine floats are modelled as exact rationals; Python `round(x, n)`
(round-half-to-even) is modelled by `pyRound`, `int(x)` by `pyInt`,
and `x ** 0.5` (the float square root inside the Bollinger code) is
passed in as an explicit parameter `sq` constrained only by the
properties the proofs need (non-negativity on non-negative inputs).
Log/reason strings, Telegram formatting and other presentation-only
data are not modelled; every field that feeds back into control flow
or numeric output is.  Two reachable Python exceptions are modelled
explicitly: the `TypeError` that `get_market_status` always raises
(it calls `datetime.time(h, m)` on the `datetime` class), reached by
the market-closed mock-tick branch, and the `ZeroDivisionError` of the
stop-loss loss-percentage computation at a zero entry price, which the
function-level `except` of `check_stop_losses` converts to an empty
result.
-/

namespace NseWire

/-- Round a rational to the nearest integer, ties to even: the rounding
mode of Python `round`. -/
def rheInt (q : ℚ) : ℤ :=
  if q - ⌊q⌋ < 1/2 then ⌊q⌋
  else if 1/2 < q - ⌊q⌋ then ⌊q⌋ + 1
  else if Even ⌊q⌋ then ⌊q⌋ else ⌊q⌋ + 1

/-- Python `round(q, n)`: round half to even at `n` decimal places. -/
def pyRound (q : ℚ) (n : ℕ) : ℚ :=
  (rheInt (q * 10 ^ n) : ℚ) / 10 ^ n

/-- Python `int(q)`: truncation toward zero. -/
def pyInt (q : ℚ) : ℤ :=
  if 0 ≤ q then ⌊q⌋ else -⌊-q⌋

/-- Consecutive price changes `prices[i] - prices[i-1]`
(`upstox_service.py` line 525). -/
def priceChanges (prices : List ℚ) : List ℚ :=
  List.zipWith (fun a b => a - b) (prices.drop 1) prices

/-- Wilder smoothing step applied by the `for i in range(period, ...)`
loop of `calculate_rsi`: `avg = (avg*(period-1) + new)/period`. -/
def wilderSmooth (period : ℕ) (init : ℚ) (xs : List ℚ) : ℚ :=
  xs.foldl (fun avg x => (avg * ((period : ℚ) - 1) + x) / period) init

/-- The gains series of `calculate_rsi`: `max(change, 0)`. -/
def rsiGains (prices : List ℚ) : List ℚ :=
  (priceChanges prices).map (fun c => max c 0)

/-- The losses series of `calculate_rsi`: `-min(change, 0)`. -/
def rsiLosses (prices : List ℚ) : List ℚ :=
  (priceChanges prices).map (fun c => max (-c) 0)

/-- Smoothed average gain of `calculate_rsi`: seeded with the mean of
the first `period` gains, then Wilder-smoothed over the rest. -/
def avgGain (prices : List ℚ) (period : ℕ) : ℚ :=
  wilderSmooth period (((rsiGains prices).take period).sum / period)
    ((rsiGains prices).drop period)

/-- Smoothed average loss of `calculate_rsi`, symmetric to `avgGain`. -/
def avgLoss (prices : List ℚ) (period : ℕ) : ℚ :=
  wilderSmooth period (((rsiLosses prices).take period).sum / period)
    ((rsiLosses prices).drop period)

/-- `UpstoxService.calculate_rsi` (`upstox_service.py` lines 518-548):
returns 50.0 on insufficient history, 100.0 when the smoothed average
loss is zero, else the rounded Wilder RSI. -/
def calculate_rsi (prices : List ℚ) (period : ℕ) : ℚ :=
  if prices.length < period + 1 then 50
  else
    let aG := avgGain prices period
    let aL := avgLoss prices period
    if aL = 0 then 100
    else pyRound (100 - 100 / (1 + aG / aL)) 1

/-- Result record of `calculate_bollinger_bands`. -/
structure Bands where
  upper : ℚ
  middle : ℚ
  lower : ℚ
deriving DecidableEq, Repr

/-- `UpstoxService.calculate_bollinger_bands` (`upstox_service.py` lines
550-576).  `sq` stands for the float square root `variance ** 0.5`; the
theorems constrain it only by the properties of the real square root
they need. -/
def calculate_bollinger_bands (sq : ℚ → ℚ) (prices : List ℚ)
    (period : ℕ) (std_dev : ℚ) : Bands :=
  if prices.length < period then ⟨0, 0, 0⟩
  else
    let recent := prices.drop (prices.length - period)
    let sma := recent.sum / (recent.length : ℚ)
    let variance := (recent.map (fun p => (p - sma) ^ 2)).sum / (recent.length : ℚ)
    let std := sq variance
    ⟨pyRound (sma + std_dev * std) 2, pyRound sma 2, pyRound (sma - std_dev * std) 2⟩

/-- `buy_condition_1` of `calculate_trading_signal` (line 617):
bullish alignment or sideways-upward with tolerance. -/
def buy_condition_1 (cp ma50 ma200 : ℚ) : Bool :=
  decide ((ma50 < cp ∧ ma200 < ma50) ∨ (ma200 * 0.999 ≤ ma50 ∧ ma50 < cp))

/-- `buy_condition_2` (line 618): RSI momentum. -/
def buy_condition_2 (rsi : ℚ) : Bool :=
  decide (40 < rsi)

/-- `buy_condition_3` (line 619): price above MA20 with buffer. -/
def buy_condition_3 (cp ma20 : ℚ) : Bool :=
  decide (ma20 * 0.998 < cp)

/-- `sell_condition_1` (line 622). -/
def sell_condition_1 (cp ma50 ma200 : ℚ) : Bool :=
  decide ((cp < ma50 ∧ ma50 < ma200) ∨ (ma50 ≤ ma200 * 1.001 ∧ cp < ma50))

/-- `sell_condition_2` (line 623). -/
def sell_condition_2 (rsi : ℚ) : Bool :=
  decide (rsi < 60)

/-- `sell_condition_3` (line 624). -/
def sell_condition_3 (cp ma20 : ℚ) : Bool :=
  decide (cp < ma20 * 1.002)

/-- The Bollinger analysis block of `calculate_trading_signal` (lines
626-669): returns `(bb_buy_signals, bb_sell_signals)`.  The branches form
one `if/elif` chain, so exactly one weight is awarded. -/
def bbSignals (cp rsi ma20 ma50 ma200 bu bm bl : ℚ) : ℚ × ℚ :=
  if 0 < bu ∧ 0 < bl ∧ 0 < bm then
    let bb_width := (bu - bl) / bm * 100
    if cp ≤ bl * 1.02 ∧ rsi < 35 then (2, 0)
    else if bu * 0.98 ≤ cp ∧ 65 < rsi then (0, 2)
    else if rsi ≤ 25 then (3/2, 0)
    else if 75 ≤ rsi then (0, 3/2)
    else if bb_width < 10 then
      if bu < cp ∧ buy_condition_1 cp ma50 ma200 then (1, 0)
      else if cp < bl ∧ sell_condition_1 cp ma50 ma200 then (0, 1)
      else (0, 0)
    else if cp < bm ∧ buy_condition_2 rsi ∧ buy_condition_3 cp ma20 then (1/2, 0)
    else if bm < cp ∧ sell_condition_2 rsi ∧ sell_condition_3 cp ma20 then (0, 1/2)
    else (0, 0)
  else (0, 0)

/-- Python `sum([cond1, cond2, cond3])` over booleans. -/
def condCount (a b c : Bool) : ℕ :=
  (if a then 1 else 0) + (if b then 1 else 0) + (if c then 1 else 0)

/-- The priority ladder of `calculate_trading_signal` (lines 698-777):
returns `(direction, confidence, sentiment)`. -/
def tradingDecision (cp rsi ma20 ma50 ma200 bu bm bl : ℚ) : String × ℤ × String :=
  let b1 := buy_condition_1 cp ma50 ma200
  let b2 := buy_condition_2 rsi
  let b3 := buy_condition_3 cp ma20
  let s1 := sell_condition_1 cp ma50 ma200
  let s2 := sell_condition_2 rsi
  let s3 := sell_condition_3 cp ma20
  let bb := bbSignals cp rsi ma20 ma50 ma200 bu bm bl
  let buyCount := condCount b1 b2 b3
  let sellCount := condCount s1 s2 s3
  if 2 ≤ bb.1 ∧ 1 ≤ buyCount then
    ("BUY", 2 + pyInt bb.1, if 2 ≤ bb.1 then "BULLISH" else "NEUTRAL")
  else if 2 ≤ bb.2 ∧ 1 ≤ sellCount then
    ("SELL", 2 + pyInt bb.2, if 2 ≤ bb.2 then "BEARISH" else "NEUTRAL")
  else if b1 && b2 && b3 then
    ("BUY", 3 + min (pyInt bb.1) 2, "BULLISH")
  else if s1 && s2 && s3 then
    ("SELL", 3 + min (pyInt bb.2) 2, "BEARISH")
  else if 1 ≤ bb.1 ∧ 2 ≤ buyCount then
    ("BUY", 2 + pyInt bb.1, "NEUTRAL")
  else if 1 ≤ bb.2 ∧ 2 ≤ sellCount then
    ("SELL", 2 + pyInt bb.2, "NEUTRAL")
  else if buyCount = 2 ∧ 50 < rsi then
    ("BUY", 2, "NEUTRAL")
  else if sellCount = 2 ∧ rsi < 50 then
    ("SELL", 2, "NEUTRAL")
  else
    ("HOLD", 0, "NEUTRAL")

/-- The signal record produced by `calculate_trading_signal`.  The
human-readable `reasons` strings and the diagnostic `conditions` /
`bollinger` sub-dicts are presentation data and are not modelled. -/
structure TradingSignal where
  sentiment : String
  direction : String
  entry : ℚ
  sl : ℚ
  target : ℚ
  confidence : ℤ
deriving DecidableEq, Repr

/-- `UpstoxService.calculate_trading_signal` (`upstox_service.py` lines
593-847): decision ladder plus entry / stop-loss / target levels. -/
def calculate_trading_signal (cp rsi ma20 ma50 ma200 bu bm bl : ℚ) : TradingSignal :=
  let d := tradingDecision cp rsi ma20 ma50 ma200 bu bm bl
  let direction := d.1
  let confidence := d.2.1
  let sentiment := d.2.2
  let bb := bbSignals cp rsi ma20 ma50 ma200 bu bm bl
  let slTarget : ℚ × ℚ :=
    if direction = "BUY" then
      (if 0 < bl then
        pyRound (max (max (bl * 0.98) (ma20 * 0.97)) (cp * 0.96)) 2
       else pyRound (min (ma20 * 0.97) (cp * 0.97)) 2,
       if 0 < bu ∧ 2 ≤ bb.1 then
        pyRound (min (bu * 0.98) (cp * (1 + 0.02 * (confidence : ℚ)))) 2
       else pyRound (cp * (1 + 0.03 + 0.01 * (confidence : ℚ))) 2)
    else if direction = "SELL" then
      (if 0 < bu then
        pyRound (min (min (bu * 1.02) (ma20 * 1.03)) (cp * 1.04)) 2
       else pyRound (max (ma20 * 1.03) (cp * 1.03)) 2,
       if 0 < bl ∧ 2 ≤ bb.2 then
        pyRound (max (bl * 1.02) (cp * (1 - 0.02 * (confidence : ℚ)))) 2
       else pyRound (cp * (1 - 0.03 - 0.01 * (confidence : ℚ))) 2)
    else
      (pyRound (cp * 0.97) 2,
       if 0 < bm then
        (if cp * 0.02 < |cp - bm| then pyRound bm 2 else pyRound (cp * 1.02) 2)
       else pyRound (cp * 1.03) 2)
  { sentiment := sentiment, direction := direction, entry := pyRound cp 2,
    sl := slTarget.1, target := slTarget.2, confidence := confidence }

/-- A normalized market tick.  The streaming decoder's wire-only fields
(ltt, ltq, cp, market depth, atp, vtt, tbq, tsq) are presentation data
for consumers and are not modelled; an absent `cached` / `mock` dict key
is modelled as `false`. -/
structure Tick where
  ltp : ℚ
  openPrice : ℚ
  high : ℚ
  low : ℚ
  close : ℚ
  vol : ℚ
  instrument_key : String
  cached : Bool
  mock : Bool
  market_status : String
deriving DecidableEq, Repr

/-- The per-key loop of the market-closed branch of
`subscribe_price_stream` (lines 46-67), iterating the requested keys in
order.  A cached key yields the cached tick with its `cached` flag set
(its other fields, `market_status` included, are left as stored).  An
uncached key builds the mock-tick dict, whose `next_market_event` value
evaluates `get_market_status()` (line 65); that function unconditionally
raises `TypeError` — `from datetime import datetime` binds `datetime` to
the class, so `datetime.time(15, 30)` / `datetime.time(9, 15)` (lines
925, 931, 935) invoke the instance method `datetime.time` on an `int` —
and no `try` encloses the branch, so the generator raises and emits
nothing for this key or any later key; the mock CLOSED tick of the dict
literal is never yielded.  Returns the yielded ticks and whether the
branch raised. -/
def closedMarketYields (cache : String → Option Tick) :
    List String → List Tick × Bool
  | [] => ([], false)
  | key :: rest =>
    match cache key with
    | some t =>
      let r := closedMarketYields cache rest
      ({ t with cached := true } :: r.1, r.2)
    | none => ([], true)

/-- The market-closed path of `subscribe_price_stream` (lines 41-70):
the yields and raise flag of the per-key loop, paired with the number
of network connection attempts — the branch returns (or raises) before
any `requests.get` or `websockets.connect` is reached, so it is zero. -/
def subscribeClosedMarket (cache : String → Option Tick)
    (keys : List String) : (List Tick × Bool) × ℕ :=
  (closedMarketYields cache keys, 0)

/-- The cache update performed on a successfully decoded streaming tick
(lines 192-197): the tick dict is stored in `last_tick_cache` and then
mutated with `market_status = "OPEN"`, so the cached object carries
status OPEN.  Returns the updated cache and the yielded tick. -/
def cacheStreamTick (cache : String → Option Tick) (key : String)
    (t : Tick) : (String → Option Tick) × Tick :=
  let t' := { t with market_status := "OPEN" }
  (fun k => if k = key then some t' else cache k, t')

/-- Backoff delay in seconds after the `retry_count`-th consecutive
failure: `min(60, base_delay * (2 ** retry_count))` with
`base_delay = 2` (lines 208 and 214). -/
def backoffWait (retry_count : ℕ) : ℕ :=
  min 60 (2 * 2 ^ retry_count)

/-- Trace of the reconnect loop of `subscribe_price_stream` (lines
72-216) for a run in which every loop iteration ends in a connection
loss or error.  Each entry of `outcomes` is one failed iteration;
`true` means the iteration reached the post-authorization reset
(`retry_count = 0`, line 97) before failing, `false` that it failed
earlier.  Produced is the list of `(retry_count, wait_time)` pairs of
the executed backoff sleeps; the loop guard is `retry_count < 5`
(`max_retries = 5`, line 73). -/
def runBackoff : List Bool → ℕ → List (ℕ × ℕ)
  | [], _ => []
  | reached :: rest, retry_count =>
    if retry_count < 5 then
      let rc := (if reached then 0 else retry_count) + 1
      (rc, backoffWait rc) :: runBackoff rest rc
    else []

/-- One entry of the signal monitor's `current_signals` map
(`signal_monitor.py` lines 98-111); the `timestamp` field is never read
back by the detection logic and is not modelled. -/
structure MonSignal where
  direction : String
  confidence : ℤ
  price : ℚ
  sentiment : String
deriving DecidableEq, Repr

/-- A detected signal change (`signal_monitor.py` lines 147-154); the
`change_type` display string is derived from the two booleans and is
not modelled separately. -/
structure SignalChange where
  symbol : String
  old_signal : Option MonSignal
  new_signal : MonSignal
  direction_changed : Bool
  confidence_changed : Bool
deriving DecidableEq, Repr

/-- `last_signal.get('direction', 'UNKNOWN')` over the cached map. -/
def lastDirectionOf (o : Option MonSignal) : String :=
  match o with
  | some s => s.direction
  | none => "UNKNOWN"

/-- `last_signal.get('confidence', 0)` over the cached map. -/
def lastConfidenceOf (o : Option MonSignal) : ℤ :=
  match o with
  | some s => s.confidence
  | none => 0

/-- Per-symbol body of the loop of
`SignalMonitorService.detect_signal_changes` (lines 125-154). -/
def entryChange (cached : String → Option MonSignal) (sym : String)
    (cur : MonSignal) : Option SignalChange :=
  let last := cached sym
  let lastDir := lastDirectionOf last
  let lastConf := lastConfidenceOf last
  let dirChanged := decide (lastDir ≠ cur.direction) && decide (lastDir ≠ "UNKNOWN")
  let confChanged := decide (1 ≤ |cur.confidence - lastConf|) && decide (lastDir ≠ "UNKNOWN")
  if dirChanged || confChanged then
    some { symbol := sym, old_signal := last, new_signal := cur,
           direction_changed := dirChanged, confidence_changed := confChanged }
  else none

/-- `SignalMonitorService.detect_signal_changes` (lines 117-156): the
current signals map is traversed and each symbol is compared with the
stored `last_signals`. -/
def detectSignalChanges (cached : String → Option MonSignal)
    (current : List (String × MonSignal)) : List SignalChange :=
  current.filterMap (fun p => entryChange cached p.1 p.2)

/-- `send_signal_notifications` (lines 203-238) sends one Telegram
message per change in `changes[:3]`; these are the individually
notified changes.  No timestamp or cooldown is consulted. -/
def notifiedChanges (changes : List SignalChange) : List SignalChange :=
  changes.take 3

/-- One cycle of `SignalMonitorService.check_and_notify` (lines
287-319): detect changes against the stored map, notify them, then
overwrite `last_signals` wholesale with the current map.  Returns the
detected changes and the new stored map.  The function reads no clock:
nothing in it depends on the time since any previous notification. -/
def checkAndNotify (cached : String → Option MonSignal)
    (current : List (String × MonSignal)) :
    List SignalChange × (String → Option MonSignal) :=
  (detectSignalChanges cached current, fun s => (current.lookup s))

/-- A trade record of the journal (`trade_journal.py` lines 77-93),
restricted to the fields read by the stop-loss monitor. -/
structure Trade where
  symbol : String
  action : String
  entry_price : ℚ
  quantity : ℤ
  sl : ℚ
  status : String
  entry_time : String
deriving DecidableEq, Repr

/-- `TradeJournalService.get_open_trades` (lines 121-128). -/
def get_open_trades (trades : List Trade) : List Trade :=
  trades.filter (fun t => decide (t.status = "OPEN"))

/-- Open trades of one symbol (`stop_loss_monitor.py` lines 49-50). -/
def openTradesFor (trades : List Trade) (s : String) : List Trade :=
  (get_open_trades trades).filter (fun t => decide (t.symbol = s))

/-- Signed quantity contribution of one open trade to the net position
(`trade_journal.py` lines 206-209). -/
def signedQty (t : Trade) : ℤ :=
  if t.action = "BUY" then t.quantity
  else if t.action = "SELL" then -t.quantity
  else 0

/-- Net position of one symbol: the value
`TradeJournalService.get_all_positions` (lines 191-216) associates with
it, i.e. the signed sum of its open trades' quantities. -/
def netPosition (trades : List Trade) (s : String) : ℤ :=
  ((openTradesFor trades s).map signedQty).sum

/-- The symbols iterated by `check_stop_losses` (lines 27-30): symbols
owning at least one open trade whose net position is non-zero
(`get_all_positions` already drops zero positions and line 30 filters
again). -/
def symbolsWithPositions (trades : List Trade) : List String :=
  ((get_open_trades trades).map (fun t => t.symbol)).dedup.filter
    (fun s => decide (netPosition trades s ≠ 0))

/-- Python `max(symbol_trades, key=lambda x: x.get('entry_time', ''))`
(line 55): the first trade with maximal `entry_time` (ISO timestamp
strings, compared lexicographically). -/
def firstMaxByEntryTime : List Trade → Option Trade
  | [] => none
  | t :: ts => some (ts.foldl (fun acc x => if acc.entry_time < x.entry_time then x else acc) t)

/-- A reported stop-loss hit (`stop_loss_monitor.py` lines 77-88). -/
structure StopLossHit where
  symbol : String
  net_quantity : ℤ
  current_price : ℚ
  sl_price : ℚ
  entry_price : ℚ
  loss_amount : ℚ
  loss_pct : ℚ
  urgency : String
  trades : List Trade
deriving DecidableEq, Repr

/-- Per-symbol body of `StopLossMonitorService.check_stop_losses`
(lines 41-88): skip on missing price (`current_prices.get(symbol, 0)`
followed by the `current_price == 0` guard), then compare the current
price with the stop level of the most recent open trade.
`Except.error` marks the `ZeroDivisionError` raised by the
loss-percentage computation (lines 69, 75) when the most recent trade's
entry price is zero and the stop condition holds; the function-level
`except` of `check_stop_losses` turns it into an empty result. -/
def checkSymbolStopLoss (trades : List Trade) (prices : String → ℚ)
    (s : String) : Except Unit (Option StopLossHit) :=
  let q := netPosition trades s
  let p := prices s
  if p = 0 then .ok none
  else
    match firstMaxByEntryTime (openTradesFor trades s) with
    | none => .ok none
    | some rt =>
      if 0 < q then
        if p ≤ rt.sl then
          if rt.entry_price = 0 then .error ()
          else
            let lossAmount := (rt.entry_price - p) * ((|q| : ℤ) : ℚ)
            let lossPct := (rt.entry_price - p) / rt.entry_price * 100
            .ok (some { symbol := s, net_quantity := q, current_price := p,
                        sl_price := rt.sl, entry_price := rt.entry_price,
                        loss_amount := pyRound lossAmount 2,
                        loss_pct := pyRound lossPct 2,
                        urgency := if 5 < |lossPct| then "HIGH" else "MEDIUM",
                        trades := openTradesFor trades s })
        else .ok none
      else if q < 0 then
        if rt.sl ≤ p then
          if rt.entry_price = 0 then .error ()
          else
            let lossAmount := (p - rt.entry_price) * ((|q| : ℤ) : ℚ)
            let lossPct := (p - rt.entry_price) / rt.entry_price * 100
            .ok (some { symbol := s, net_quantity := q, current_price := p,
                        sl_price := rt.sl, entry_price := rt.entry_price,
                        loss_amount := pyRound lossAmount 2,
                        loss_pct := pyRound lossPct 2,
                        urgency := if 5 < |lossPct| then "HIGH" else "MEDIUM",
                        trades := openTradesFor trades s })
        else .ok none
      else .ok none

/-- The hit (if any) a non-raising per-symbol step contributes. -/
def slStepHit : Except Unit (Option StopLossHit) → Option StopLossHit
  | .ok o => o
  | .error _ => none

/-- Whether a per-symbol step raises. -/
def slStepRaises : Except Unit (Option StopLossHit) → Bool
  | .ok _ => false
  | .error _ => true

/-- Whether some monitored symbol's step raises; the exception
propagates to the `try` wrapping the whole of `check_stop_losses`. -/
def slRaises (trades : List Trade) (prices : String → ℚ) : Bool :=
  (symbolsWithPositions trades).any
    (fun s => slStepRaises (checkSymbolStopLoss trades prices s))

/-- `StopLossMonitorService.check_stop_losses` (lines 23-94): the hits
collected over all monitored symbols, except that a `ZeroDivisionError`
raised by any symbol's step reaches the function-level `except`, which
returns the empty list (no alert for any symbol). -/
def check_stop_losses (trades : List Trade) (prices : String → ℚ) :
    List StopLossHit :=
  if slRaises trades prices then []
  else (symbolsWithPositions trades).filterMap
    (fun s => slStepHit (checkSymbolStopLoss trades prices s))

/-- Spec-side instrument for claim C10: rewrite (via `g`) the stop level
of one trade when it is an open trade of symbol `s` strictly older than
`cutoff`; every other field is left unchanged. -/
def adjustOne (s : String) (cutoff : String) (g : ℚ → ℚ) (t : Trade) : Trade :=
  if t.status = "OPEN" ∧ t.symbol = s ∧ t.entry_time < cutoff
  then { t with sl := g t.sl } else t

/-- Spec-side instrument for claim C10: rewrite (via `g`) the stop level
of every open trade of symbol `s` strictly older than `cutoff`, leaving
every other trade unchanged. -/
def adjustOlderSl (s : String) (cutoff : String) (g : ℚ → ℚ)
    (trades : List Trade) : List Trade :=
  trades.map (adjustOne s cutoff g)

/-! ## Helper lemmas -/

theorem le_rheInt (q : ℚ) : ⌊q⌋ ≤ rheInt q := by
  unfold rheInt
  split_ifs <;> omega

theorem rheInt_le_floor_add_one (q : ℚ) : rheInt q ≤ ⌊q⌋ + 1 := by
  unfold rheInt
  split_ifs <;> omega

theorem rheInt_mono {a b : ℚ} (hab : a ≤ b) : rheInt a ≤ rheInt b := by
  rcases lt_or_eq_of_le (Int.floor_mono hab) with hlt | heq
  · calc rheInt a ≤ ⌊a⌋ + 1 := rheInt_le_floor_add_one a
      _ ≤ ⌊b⌋ := by omega
      _ ≤ rheInt b := le_rheInt b
  · have hfr : a - (⌊a⌋ : ℚ) ≤ b - (⌊b⌋ : ℚ) := by
      rw [heq]
      linarith
    by_cases hb1 : b - ⌊b⌋ < 1/2
    · have ha1 : a - ⌊a⌋ < 1/2 := lt_of_le_of_lt hfr hb1
      have hl : rheInt a = ⌊a⌋ := by simp only [rheInt]; rw [if_pos ha1]
      have hr : rheInt b = ⌊b⌋ := by simp only [rheInt]; rw [if_pos hb1]
      omega
    · by_cases hb2 : 1/2 < b - ⌊b⌋
      · have hr : rheInt b = ⌊b⌋ + 1 := by
          simp only [rheInt]
          rw [if_neg hb1, if_pos hb2]
        have := rheInt_le_floor_add_one a
        omega
      · by_cases ha1 : a - ⌊a⌋ < 1/2
        · have hl : rheInt a = ⌊a⌋ := by simp only [rheInt]; rw [if_pos ha1]
          have := le_rheInt b
          omega
        · have ha2 : ¬(1/2 < a - ⌊a⌋) := by
            push_neg at hb2 ⊢
            linarith
          have hl : rheInt a = if Even ⌊a⌋ then ⌊a⌋ else ⌊a⌋ + 1 := by
            simp only [rheInt]
            rw [if_neg ha1, if_neg ha2]
          have hr : rheInt b = if Even ⌊b⌋ then ⌊b⌋ else ⌊b⌋ + 1 := by
            simp only [rheInt]
            rw [if_neg hb1, if_neg hb2]
          rw [hl, hr, heq]

theorem pyRound_mono {a b : ℚ} (n : ℕ) (hab : a ≤ b) :
    pyRound a n ≤ pyRound b n := by
  unfold pyRound
  have h10 : (0 : ℚ) < 10 ^ n := by positivity
  apply (div_le_div_iff_of_pos_right h10).mpr
  exact_mod_cast rheInt_mono (mul_le_mul_of_nonneg_right hab (le_of_lt h10))

theorem pyInt_nonneg {q : ℚ} (h : 0 ≤ q) : 0 ≤ pyInt q := by
  unfold pyInt
  rw [if_pos h]
  exact Int.floor_nonneg.mpr h

theorem pyInt_le_two {q : ℚ} (h0 : 0 ≤ q) (h2 : q ≤ 2) : pyInt q ≤ 2 := by
  unfold pyInt
  rw [if_pos h0]
  have h := Int.floor_le_floor h2
  simpa using h

theorem priceChanges_nonneg {prices : List ℚ}
    (h : List.Chain' (· ≤ ·) prices) : ∀ c ∈ priceChanges prices, 0 ≤ c := by
  induction prices with
  | nil => intro c hc; simp [priceChanges] at hc
  | cons p rest ih =>
    cases rest with
    | nil => intro c hc; simp [priceChanges] at hc
    | cons q rest2 =>
      intro c hc
      have hpc : priceChanges (p :: q :: rest2) = (q - p) :: priceChanges (q :: rest2) := rfl
      rw [hpc] at hc
      rcases List.mem_cons.mp hc with h1 | h2
      · have hpq : p ≤ q := (List.chain'_cons.mp h).1
        rw [h1]
        linarith
      · exact ih (List.chain'_cons.mp h).2 c h2

theorem rsiLosses_eq_zero {prices : List ℚ}
    (h : List.Chain' (· ≤ ·) prices) : ∀ x ∈ rsiLosses prices, x = 0 := by
  intro x hx
  unfold rsiLosses at hx
  rcases List.mem_map.mp hx with ⟨c, hc, rfl⟩
  have hcn : 0 ≤ c := priceChanges_nonneg h c hc
  have : -c ≤ 0 := by linarith
  simpa using max_eq_right this

theorem wilderSmooth_zero (period : ℕ) {xs : List ℚ}
    (h : ∀ x ∈ xs, x = 0) : wilderSmooth period 0 xs = 0 := by
  induction xs with
  | nil => rfl
  | cons a l ih =>
    have ha : a = 0 := h a (List.mem_cons_self a l)
    have hstep : wilderSmooth period 0 (a :: l)
        = wilderSmooth period ((0 * ((period : ℚ) - 1) + a) / period) l := rfl
    rw [hstep, ha]
    norm_num
    exact ih (fun x hx => h x (List.mem_cons_of_mem a hx))

theorem avgLoss_eq_zero {prices : List ℚ} (period : ℕ)
    (h : List.Chain' (· ≤ ·) prices) : avgLoss prices period = 0 := by
  have hz := rsiLosses_eq_zero h
  unfold avgLoss
  have htake : ((rsiLosses prices).take period).sum = 0 :=
    List.sum_eq_zero (fun x hx => hz x (List.mem_of_mem_take hx))
  rw [htake, zero_div]
  exact wilderSmooth_zero period (fun x hx => hz x (List.mem_of_mem_drop hx))

/-! ## Claim C3 -/

/-- C3: for every price list shorter than period+1 the RSI defaults to
50.0, and for any list of at least period+1 prices whose smoothed
average loss is zero (in particular any non-decreasing list) the RSI is
exactly 100.0.  The hypothesis `0 < period` mirrors the Python code,
whose `except` handler would fire (returning 50.0) on the division by
`period = 0`. -/
theorem c3_rsi_defaults (prices : List ℚ) (period : ℕ) (hper : 0 < period) :
    (prices.length < period + 1 → calculate_rsi prices period = 50) ∧
    (period + 1 ≤ prices.length → avgLoss prices period = 0 →
      calculate_rsi prices period = 100) ∧
    (List.Chain' (· ≤ ·) prices → avgLoss prices period = 0) := by
  refine ⟨?_, ?_, ?_⟩
  · intro h
    unfold calculate_rsi
    rw [if_pos h]
  · intro hlen hz
    simp only [calculate_rsi]
    rw [if_neg (by omega), if_pos hz]
  · intro hch
    exact avgLoss_eq_zero period hch

/-- Witness for C3 at concrete inputs: a 2-price list yields 50, a
constant 20-price list yields 100. -/
theorem c3_rsi_defaults_witness :
    calculate_rsi [(1 : ℚ), 2] 14 = 50 ∧
    calculate_rsi (List.replicate 20 (1 : ℚ)) 14 = 100 := by
  constructor
  · exact (c3_rsi_defaults [(1 : ℚ), 2] 14 (by norm_num)).1 (by simp)
  · exact (c3_rsi_defaults (List.replicate 20 (1 : ℚ)) 14 (by norm_num)).2.1
      (by simp)
      ((c3_rsi_defaults (List.replicate 20 (1 : ℚ)) 14 (by norm_num)).2.2
        (List.chain'_replicate_of_rel 20 le_rfl))

/-! ## Claim C4 -/

/-- C4 counterexample: the code returns `round(mean, 2)` as the middle
band, not the arithmetic mean itself.  On twenty prices of 0.001 the
mean of the last 20 prices is 0.001 but the returned middle band is
0.0.  (`id` is a legitimate stand-in for the float square root here:
the window is constant, so the variance — the only point at which the
square-root function is evaluated — is 0, where the real square root
also returns 0.) -/
theorem c4_counterexample :
    (calculate_bollinger_bands id (List.replicate 20 ((1 : ℚ)/1000)) 20 2).middle = 0 ∧
    ((List.replicate 20 ((1 : ℚ)/1000)).drop
        ((List.replicate 20 ((1 : ℚ)/1000)).length - 20)).sum / (20 : ℚ) = 1/1000 ∧
    (0 : ℚ) ≠ 1/1000 := by
  set_option maxRecDepth 4000 in with_unfolding_all decide

/-- C4 amended: for length ≥ period the middle band equals the
arithmetic mean of the last `period` prices rounded to 2 decimal
places (Python `round(sma, 2)`), and the bands satisfy
lower ≤ middle ≤ upper; for shorter input all three bands are 0.0.
`sq` is constrained exactly as the float square root behaves:
non-negative on non-negative input. -/
theorem c4_bollinger_amended (sq : ℚ → ℚ) (prices : List ℚ) (period : ℕ) (k : ℚ)
    (hsq : ∀ v : ℚ, 0 ≤ v → 0 ≤ sq v) (hk : 0 ≤ k) (hper : 0 < period) :
    (period ≤ prices.length →
      (calculate_bollinger_bands sq prices period k).middle
          = pyRound ((prices.drop (prices.length - period)).sum / (period : ℚ)) 2 ∧
      (calculate_bollinger_bands sq prices period k).lower
          ≤ (calculate_bollinger_bands sq prices period k).middle ∧
      (calculate_bollinger_bands sq prices period k).middle
          ≤ (calculate_bollinger_bands sq prices period k).upper) ∧
    (prices.length < period → calculate_bollinger_bands sq prices period k = ⟨0, 0, 0⟩) := by
  constructor
  · intro hle
    have hng : ¬(prices.length < period) := by omega
    have hlen : (prices.drop (prices.length - period)).length = period := by
      rw [List.length_drop]
      omega
    simp only [calculate_bollinger_bands, hng, if_false, hlen]
    have hsum : 0 ≤ ((prices.drop (prices.length - period)).map
        (fun p => (p - (prices.drop (prices.length - period)).sum / (period : ℚ)) ^ 2)).sum := by
      apply List.sum_nonneg
      intro x hx
      rcases List.mem_map.mp hx with ⟨p, _, rfl⟩
      exact sq_nonneg _
    have hvar : 0 ≤ ((prices.drop (prices.length - period)).map
        (fun p => (p - (prices.drop (prices.length - period)).sum / (period : ℚ)) ^ 2)).sum
          / (period : ℚ) := by
      apply div_nonneg hsum
      positivity
    have hstd := hsq _ hvar
    have hks : 0 ≤ k * sq (((prices.drop (prices.length - period)).map
        (fun p => (p - (prices.drop (prices.length - period)).sum / (period : ℚ)) ^ 2)).sum
          / (period : ℚ)) := mul_nonneg hk hstd
    refine ⟨trivial, pyRound_mono 2 (by linarith), pyRound_mono 2 (by linarith)⟩
  · intro hlt
    simp only [calculate_bollinger_bands, hlt, if_true]

/-- Witness for C4 at a concrete input: a constant 20-price window. -/
theorem c4_bollinger_amended_witness :
    (calculate_bollinger_bands id (List.replicate 20 (1 : ℚ)) 20 2).middle
        = pyRound (((List.replicate 20 (1 : ℚ)).drop
            ((List.replicate 20 (1 : ℚ)).length - 20)).sum / (20 : ℚ)) 2 ∧
    (calculate_bollinger_bands id (List.replicate 20 (1 : ℚ)) 20 2).lower
        ≤ (calculate_bollinger_bands id (List.replicate 20 (1 : ℚ)) 20 2).middle ∧
    (calculate_bollinger_bands id (List.replicate 20 (1 : ℚ)) 20 2).middle
        ≤ (calculate_bollinger_bands id (List.replicate 20 (1 : ℚ)) 20 2).upper :=
  (c4_bollinger_amended id (List.replicate 20 (1 : ℚ)) 20 2
    (fun _ hv => hv) (by norm_num) (by norm_num)).1 (by simp)

/-! ## Claims C9 and C1: trading-signal lemmas -/

theorem calculate_trading_signal_direction (cp rsi ma20 ma50 ma200 bu bm bl : ℚ) :
    (calculate_trading_signal cp rsi ma20 ma50 ma200 bu bm bl).direction
      = (tradingDecision cp rsi ma20 ma50 ma200 bu bm bl).1 := rfl

theorem calculate_trading_signal_confidence (cp rsi ma20 ma50 ma200 bu bm bl : ℚ) :
    (calculate_trading_signal cp rsi ma20 ma50 ma200 bu bm bl).confidence
      = (tradingDecision cp rsi ma20 ma50 ma200 bu bm bl).2.1 := rfl

theorem bbSignals_bounds (cp rsi ma20 ma50 ma200 bu bm bl : ℚ) :
    0 ≤ (bbSignals cp rsi ma20 ma50 ma200 bu bm bl).1 ∧
    (bbSignals cp rsi ma20 ma50 ma200 bu bm bl).1 ≤ 2 ∧
    0 ≤ (bbSignals cp rsi ma20 ma50 ma200 bu bm bl).2 ∧
    (bbSignals cp rsi ma20 ma50 ma200 bu bm bl).2 ≤ 2 := by
  simp only [bbSignals]
  split_ifs <;> norm_num

theorem bbSignals_fst_le_one (cp rsi ma20 ma50 ma200 bu bm bl : ℚ)
    (hrsi : 40 < rsi) :
    (bbSignals cp rsi ma20 ma50 ma200 bu bm bl).1 ≤ 1 := by
  simp only [bbSignals]
  split_ifs with hbands h1 h2 h3 h4 h5 h6 h7 h8
  all_goals norm_num
  · exact absurd h1.2 (by linarith)
  · exact absurd h3 (by linarith)

theorem bbSignals_snd_lt_two (cp rsi ma20 ma50 ma200 bu bm bl : ℚ)
    (hno : ¬(0 < bu ∧ 0 < bl ∧ 0 < bm ∧ bu * 0.98 ≤ cp ∧ 65 < rsi)) :
    (bbSignals cp rsi ma20 ma50 ma200 bu bm bl).2 < 2 := by
  simp only [bbSignals]
  split_ifs with hbands h1 h2 h3 h4 h5 h6 h7 h8
  all_goals norm_num
  exact hno ⟨hbands.1, hbands.2.1, hbands.2.2, h2.1, h2.2⟩

/-- C9: on every input the confidence of the returned signal is an
integer in the range 0..5. -/
theorem c9_confidence_range (cp rsi ma20 ma50 ma200 bu bm bl : ℚ) :
    0 ≤ (calculate_trading_signal cp rsi ma20 ma50 ma200 bu bm bl).confidence ∧
    (calculate_trading_signal cp rsi ma20 ma50 ma200 bu bm bl).confidence ≤ 5 := by
  rw [calculate_trading_signal_confidence]
  obtain ⟨hb0, hb2, hs0, hs2⟩ := bbSignals_bounds cp rsi ma20 ma50 ma200 bu bm bl
  have hpb0 := pyInt_nonneg hb0
  have hpb2 := pyInt_le_two hb0 hb2
  have hps0 := pyInt_nonneg hs0
  have hps2 := pyInt_le_two hs0 hs2
  have hm1 : 0 ≤ min (pyInt (bbSignals cp rsi ma20 ma50 ma200 bu bm bl).1) 2 :=
    le_min hpb0 (by norm_num)
  have hm2 : min (pyInt (bbSignals cp rsi ma20 ma50 ma200 bu bm bl).1) 2 ≤ 2 :=
    min_le_right _ _
  have hm3 : 0 ≤ min (pyInt (bbSignals cp rsi ma20 ma50 ma200 bu bm bl).2) 2 :=
    le_min hps0 (by norm_num)
  have hm4 : min (pyInt (bbSignals cp rsi ma20 ma50 ma200 bu bm bl).2) 2 ≤ 2 :=
    min_le_right _ _
  simp only [tradingDecision]
  split_ifs <;> dsimp only <;> constructor <;> omega

/-! ## Claim C1 -/

/-- C1 counterexample: with MA50 > MA200, price > MA50, RSI > 40 and
price > MA20 all satisfied (price 100, RSI 70, MA20 99.9, MA50 90,
MA200 80), Bollinger bands (upper 100, middle 75, lower 50) trigger the
strong overbought-rejection override (price ≥ upper×0.98, RSI > 65)
with one core SELL condition true (price < MA20×1.002), so the code
returns direction SELL, not BUY. -/
theorem c1_counterexample :
    (80 : ℚ) < 90 ∧ (90 : ℚ) < 100 ∧ (40 : ℚ) < 70 ∧ (999/10 : ℚ) < 100 ∧
    (calculate_trading_signal 100 70 (999/10) 90 80 100 75 50).direction = "SELL" ∧
    (calculate_trading_signal 100 70 (999/10) 90 80 100 75 50).direction ≠ "BUY" := by
  set_option maxRecDepth 8000 in with_unfolding_all decide

/-- C1 amended: under the four stated conditions the signal is BUY with
confidence ≥ 3, provided additionally that MA20 is non-negative (so
that price > MA20 implies the buffered core condition
price > MA20×0.998) and that the strong Bollinger overbought-rejection
override (all bands positive, price ≥ upper×0.98, RSI > 65) does not
fire — the counterexample shows the claim false without these. -/
theorem c1_buy_signal_amended (cp rsi ma20 ma50 ma200 bu bm bl : ℚ)
    (h1 : ma200 < ma50) (h2 : ma50 < cp) (h3 : 40 < rsi) (h4 : ma20 < cp)
    (h5 : 0 ≤ ma20)
    (hno : ¬(0 < bu ∧ 0 < bl ∧ 0 < bm ∧ bu * 0.98 ≤ cp ∧ 65 < rsi)) :
    (calculate_trading_signal cp rsi ma20 ma50 ma200 bu bm bl).direction = "BUY" ∧
    3 ≤ (calculate_trading_signal cp rsi ma20 ma50 ma200 bu bm bl).confidence := by
  rw [calculate_trading_signal_direction, calculate_trading_signal_confidence]
  have hb1 : buy_condition_1 cp ma50 ma200 = true := by
    simp only [buy_condition_1, decide_eq_true_eq]
    exact Or.inl ⟨h2, h1⟩
  have hb2 : buy_condition_2 rsi = true := by
    simp only [buy_condition_2, decide_eq_true_eq]
    exact h3
  have hb3 : buy_condition_3 cp ma20 = true := by
    simp only [buy_condition_3, decide_eq_true_eq]
    linarith
  have hfst := bbSignals_fst_le_one cp rsi ma20 ma50 ma200 bu bm bl h3
  have hsnd := bbSignals_snd_lt_two cp rsi ma20 ma50 ma200 bu bm bl hno
  have hfst0 : 0 ≤ (bbSignals cp rsi ma20 ma50 ma200 bu bm bl).1 :=
    (bbSignals_bounds cp rsi ma20 ma50 ma200 bu bm bl).1
  have hmin : 0 ≤ min (pyInt (bbSignals cp rsi ma20 ma50 ma200 bu bm bl).1) 2 :=
    le_min (pyInt_nonneg hfst0) (by norm_num)
  simp only [tradingDecision]
  rw [if_neg (by intro hc; linarith [hc.1]), if_neg (by intro hc; linarith [hc.1]),
    if_pos (by rw [hb1, hb2, hb3]; rfl)]
  exact ⟨rfl, by dsimp only; omega⟩

/-- Witness for the amended C1 at a concrete input with no Bollinger
data: price 100, RSI 55, MA20 95, MA50 90, MA200 80 yields BUY with
confidence 3. -/
theorem c1_buy_signal_amended_witness :
    (calculate_trading_signal 100 55 95 90 80 0 0 0).direction = "BUY" ∧
    3 ≤ (calculate_trading_signal 100 55 95 90 80 0 0 0).confidence :=
  c1_buy_signal_amended 100 55 95 90 80 0 0 0 (by norm_num) (by norm_num)
    (by norm_num) (by norm_num) (by norm_num) (by norm_num)

/-! ## Claims C7 and C2: signal-change monitor -/

theorem entryChange_symbol {cached : String → Option MonSignal} {sym : String}
    {cur : MonSignal} {ch : SignalChange}
    (h : entryChange cached sym cur = some ch) : ch.symbol = sym := by
  simp only [entryChange] at h
  split_ifs at h
  injection h with h'
  subst h'
  rfl

theorem entryChange_none_of_same {cached : String → Option MonSignal} {sym : String}
    {cur last : MonSignal} (hc : cached sym = some last)
    (hdir : cur.direction = last.direction)
    (hconf : cur.confidence = last.confidence) :
    entryChange cached sym cur = none := by
  simp [entryChange, hc, lastDirectionOf, lastConfidenceOf, hdir, hconf]

theorem entryChange_of_flip {cached : String → Option MonSignal} {sym : String}
    {last cur : MonSignal} (hc : cached sym = some last)
    (hdir : last.direction ≠ cur.direction)
    (hunk : last.direction ≠ "UNKNOWN") :
    ∃ ch, entryChange cached sym cur = some ch := by
  simp only [entryChange, lastDirectionOf, lastConfidenceOf, hc]
  rw [if_pos]
  · exact ⟨_, rfl⟩
  · simp [hdir, hunk]

/-- C7: a symbol whose freshly computed signal has the same direction
and the same confidence as the stored last signal produces no change
entry (and hence no notification), whatever the price or sentiment did. -/
theorem c7_unchanged_signal_no_entry (cached : String → Option MonSignal)
    (current : List (String × MonSignal)) (sym : String) (last : MonSignal)
    (hc : cached sym = some last)
    (hall : ∀ cur : MonSignal, (sym, cur) ∈ current →
      cur.direction = last.direction ∧ cur.confidence = last.confidence) :
    (detectSignalChanges cached current).filter
      (fun ch => decide (ch.symbol = sym)) = [] := by
  rw [List.filter_eq_nil_iff]
  intro ch hch
  simp only [decide_eq_true_eq]
  intro heq
  rcases List.mem_filterMap.mp hch with ⟨⟨s', cur⟩, hmem, hec⟩
  have hsym : ch.symbol = s' := entryChange_symbol hec
  have hs' : s' = sym := by rw [← hsym, heq]
  subst hs'
  obtain ⟨hd, hcf⟩ := hall cur hmem
  rw [entryChange_none_of_same hc hd hcf] at hec
  exact Option.noConfusion hec

/-- Witness for C7: stored BUY/3, fresh BUY/3 at a different price —
no change entry for the symbol. -/
theorem c7_unchanged_signal_no_entry_witness :
    (detectSignalChanges
      (fun s => if s = "TCS" then some ⟨"BUY", 3, 100, "BULLISH"⟩ else none)
      [("TCS", ⟨"BUY", 3, 101, "BULLISH"⟩)]).filter
        (fun ch => decide (ch.symbol = "TCS")) = [] := by
  refine c7_unchanged_signal_no_entry _ _ _ ⟨"BUY", 3, 100, "BULLISH"⟩ ?_ ?_
  · simp
  · intro cur h
    simp only [List.mem_singleton, Prod.mk.injEq] at h
    rw [h.2]
    exact ⟨rfl, rfl⟩

/-- C2 counterexample: the signal-change notifier consults no clock and
applies no cooldown.  With a stored BUY signal, a first poll flipping to
SELL notifies, and an immediately following poll flipping back to BUY —
i.e. arbitrarily soon, in particular well inside the claimed 300-second
window — notifies again: the second flip is not suppressed. -/
theorem c2_counterexample :
    (notifiedChanges (checkAndNotify
        (fun s => if s = "TCS" then some ⟨"BUY", 3, 100, "BULLISH"⟩ else none)
        [("TCS", ⟨"SELL", 3, 100, "BEARISH"⟩)]).1).length = 1 ∧
    (notifiedChanges (checkAndNotify
        (checkAndNotify
          (fun s => if s = "TCS" then some ⟨"BUY", 3, 100, "BULLISH"⟩ else none)
          [("TCS", ⟨"SELL", 3, 100, "BEARISH"⟩)]).2
        [("TCS", ⟨"BUY", 3, 100, "BULLISH"⟩)]).1).length = 1 := by
  with_unfolding_all decide

/-- C2 amended: `check_and_notify` notifies every detected significant
change immediately, with no cooldown of any kind: after a direction
flip is notified, a second flip detected on the very next cycle (at any
elapsed time whatsoever) is notified as well.  (The 300-second cooldown
described by the spec exists only in the separate Bollinger-band cross
`AlertService`, not in the signal-change path.) -/
theorem c2_no_cooldown_amended (cached : String → Option MonSignal)
    (sym : String) (last cur1 cur2 : MonSignal)
    (hc : cached sym = some last)
    (hd1 : last.direction ≠ cur1.direction) (hu0 : last.direction ≠ "UNKNOWN")
    (hd2 : cur1.direction ≠ cur2.direction) (hu1 : cur1.direction ≠ "UNKNOWN") :
    (notifiedChanges (checkAndNotify cached [(sym, cur1)]).1).length = 1 ∧
    (notifiedChanges (checkAndNotify (checkAndNotify cached [(sym, cur1)]).2
        [(sym, cur2)]).1).length = 1 := by
  have hc2 : (checkAndNotify cached [(sym, cur1)]).2 sym = some cur1 := by
    simp [checkAndNotify, List.lookup]
  obtain ⟨ch1, hch1⟩ := entryChange_of_flip hc hd1 hu0
  obtain ⟨ch2, hch2⟩ := entryChange_of_flip hc2 hd2 hu1
  simp only [checkAndNotify] at hch2
  constructor
  · simp [checkAndNotify, notifiedChanges, detectSignalChanges, hch1]
  · simp [checkAndNotify, notifiedChanges, detectSignalChanges, hch2]

/-- Witness for the amended C2 at concrete signals: BUY→SELL then
SELL→BUY, one notification per cycle. -/
theorem c2_no_cooldown_amended_witness :
    (notifiedChanges (checkAndNotify
        (fun s => if s = "INFY" then some ⟨"BUY", 4, 1500, "BULLISH"⟩ else none)
        [("INFY", ⟨"SELL", 4, 1490, "BEARISH"⟩)]).1).length = 1 ∧
    (notifiedChanges (checkAndNotify
        (checkAndNotify
          (fun s => if s = "INFY" then some ⟨"BUY", 4, 1500, "BULLISH"⟩ else none)
          [("INFY", ⟨"SELL", 4, 1490, "BEARISH"⟩)]).2
        [("INFY", ⟨"BUY", 4, 1510, "BULLISH"⟩)]).1).length = 1 := by
  refine c2_no_cooldown_amended _ _ ⟨"BUY", 4, 1500, "BULLISH"⟩ _ _ ?_ ?_ ?_ ?_ ?_
  · simp
  · simp
  · simp
  · simp
  · simp

/-! ## Claim C5 -/

theorem closedMarketYields_spec (cache : String → Option Tick) :
    ∀ keys : List String,
      (closedMarketYields cache keys).1
        = (keys.takeWhile (fun k => (cache k).isSome)).filterMap
            (fun k => (cache k).map (fun t0 => { t0 with cached := true })) ∧
      ((closedMarketYields cache keys).2 = true ↔ ∃ k ∈ keys, cache k = none) := by
  intro keys
  induction keys with
  | nil => exact ⟨rfl, by simp [closedMarketYields]⟩
  | cons key rest ih =>
    cases hc : cache key with
    | some t =>
      constructor
      · simp only [closedMarketYields, hc, List.takeWhile_cons, Option.isSome_some,
          if_true, List.filterMap_cons, Option.map_some']
        rw [ih.1]
      · simp only [closedMarketYields, hc]
        rw [ih.2]
        simp [hc]
    | none =>
      constructor
      · simp [closedMarketYields, hc, List.takeWhile_cons]
      · simp only [closedMarketYields, hc]
        exact ⟨fun _ => ⟨key, List.mem_cons_self _ _, hc⟩, fun _ => trivial⟩

theorem closedMarketYields_forall₂ (cache : String → Option Tick) :
    ∀ keys : List String, (∀ k ∈ keys, (cache k).isSome = true) →
      List.Forall₂
        (fun k t => ∃ t0, cache k = some t0 ∧ t = { t0 with cached := true })
        keys (closedMarketYields cache keys).1 := by
  intro keys
  induction keys with
  | nil => intro _; exact List.Forall₂.nil
  | cons key rest ih =>
    intro hall
    have hk := hall key (List.mem_cons_self _ _)
    cases hc : cache key with
    | none =>
      rw [hc] at hk
      exact absurd hk (by simp)
    | some t =>
      have hstep : (closedMarketYields cache (key :: rest)).1
          = { t with cached := true } :: (closedMarketYields cache rest).1 := by
        simp [closedMarketYields, hc]
      rw [hstep]
      exact List.Forall₂.cons ⟨t, hc, rfl⟩
        (ih (fun k hkm => hall k (List.mem_cons_of_mem _ hkm)))

/-- C5 counterexample, both halves of the original claim.  First, a
tick cached during live streaming carries `market_status = "OPEN"` (the
streaming loop stores the tick object and then sets its status to OPEN,
mutating the cached object), and the market-closed branch sets only the
`cached` flag when replaying it: the yielded cached tick has
`market_status = "OPEN"`, not the claimed `"CLOSED"`.  Second, for an
uncached key no mock tick is yielded at all: building the mock dict
evaluates `get_market_status()`, which always raises `TypeError`, so
the generator raises and emits nothing. -/
theorem c5_counterexample :
    ((subscribeClosedMarket
        (cacheStreamTick (fun _ => none) "NSE_EQ|INE001A01036"
          ⟨100, 99, 101, 98, 100, 5, "NSE_EQ|INE001A01036", false, false, ""⟩).1
        ["NSE_EQ|INE001A01036"]).1.1.map (fun t => t.market_status)) = ["OPEN"] ∧
    ((subscribeClosedMarket
        (cacheStreamTick (fun _ => none) "NSE_EQ|INE001A01036"
          ⟨100, 99, 101, 98, 100, 5, "NSE_EQ|INE001A01036", false, false, ""⟩).1
        ["NSE_EQ|INE001A01036"]).1.1.map (fun t => t.cached)) = [true] ∧
    "OPEN" ≠ "CLOSED" ∧
    (subscribeClosedMarket (fun _ => none) ["NSE_EQ|UNCACHED"]).1.1 = [] ∧
    (subscribeClosedMarket (fun _ => none) ["NSE_EQ|UNCACHED"]).1.2 = true := by
  with_unfolding_all decide

/-- C5 amended: with the market-hours gate closed, the subscription
opens no network connection and walks the requested keys in order,
yielding for each key with a cached tick that tick with its `cached`
flag set and every other field (`market_status` included) exactly as
stored, up to but not beyond the first key with no cached tick; at such
a key the mock-tick construction evaluates `get_market_status()`, which
always raises `TypeError`, so the generator raises — it never yields
the mock CLOSED tick — and emits nothing further.  When every
requested key is cached, exactly one tick per key is yielded and the
generator then stops. -/
theorem c5_closed_market_amended (cache : String → Option Tick)
    (keys : List String) :
    (subscribeClosedMarket cache keys).2 = 0 ∧
    (subscribeClosedMarket cache keys).1.1
      = (keys.takeWhile (fun k => (cache k).isSome)).filterMap
          (fun k => (cache k).map (fun t0 => { t0 with cached := true })) ∧
    ((subscribeClosedMarket cache keys).1.2 = true ↔ ∃ k ∈ keys, cache k = none) ∧
    ((subscribeClosedMarket cache keys).1.1.all (fun t => t.cached)) = true ∧
    ((∀ k ∈ keys, (cache k).isSome = true) →
      List.Forall₂
        (fun k t => ∃ t0, cache k = some t0 ∧ t = { t0 with cached := true })
        keys (subscribeClosedMarket cache keys).1.1) := by
  refine ⟨rfl, (closedMarketYields_spec cache keys).1,
    (closedMarketYields_spec cache keys).2, ?_, ?_⟩
  · rw [List.all_eq_true]
    intro t ht
    rw [show (subscribeClosedMarket cache keys).1.1 = (closedMarketYields cache keys).1
        from rfl, (closedMarketYields_spec cache keys).1] at ht
    rcases List.mem_filterMap.mp ht with ⟨k, _, hk⟩
    cases hc : cache k with
    | none =>
      rw [hc] at hk
      exact absurd hk (by simp)
    | some t0 =>
      rw [hc] at hk
      injection hk with hk'
      rw [← hk']
  · intro hall
    exact closedMarketYields_forall₂ cache keys hall

/-! ## Claim C8 -/

theorem runBackoff_entries (outcomes : List Bool) :
    ∀ (rc : ℕ), rc ≤ 5 → ∀ pr ∈ runBackoff outcomes rc,
      1 ≤ pr.1 ∧ pr.1 ≤ 5 ∧ pr.2 = backoffWait pr.1 ∧ pr.2 ≤ 60 := by
  induction outcomes with
  | nil =>
    intro rc _ pr hpr
    simp [runBackoff] at hpr
  | cons o rest ih =>
    intro rc hrc pr hpr
    simp only [runBackoff] at hpr
    by_cases hlt : rc < 5
    · rw [if_pos hlt] at hpr
      set rc1 := (if o = true then 0 else rc) + 1 with hrc1
      have hrc1le : rc1 ≤ 5 := by
        rw [hrc1]
        cases o <;> simp <;> omega
      have hrc1ge : 1 ≤ rc1 := by
        rw [hrc1]
        omega
      rcases List.mem_cons.mp hpr with h | h
      · subst h
        exact ⟨hrc1ge, hrc1le, rfl, min_le_left _ _⟩
      · exact ih rc1 hrc1le pr h
    · rw [if_neg hlt] at hpr
      simp at hpr

theorem runBackoff_failures_length (outcomes : List Bool) :
    ∀ (rc : ℕ), (∀ o ∈ outcomes, o = false) →
      (runBackoff outcomes rc).length ≤ 5 - rc := by
  induction outcomes with
  | nil => intro rc _; simp [runBackoff]
  | cons o rest ih =>
    intro rc hall
    have ho : o = false := hall o (List.mem_cons_self o rest)
    subst ho
    simp only [runBackoff, Bool.false_eq_true, if_false]
    split_ifs with hlt
    · simp only [List.length_cons]
      have := ih (rc + 1) (fun x hx => hall x (List.mem_cons_of_mem _ hx))
      omega
    · simp

/-- C8: along any run of the reconnect loop, the retry counter of every
backoff sleep stays within 1..5 — so at most five consecutive
reconnection attempts follow a connection loss before the loop gives up
— and every backoff delay equals the base delay (2 s) doubled per
attempt, capped at 60 s; a run of nothing but failures performs at most
5 attempts, with the delay sequence 4, 8, 16, 32, 60. -/
theorem c8_backoff_bounded (outcomes : List Bool) :
    (∀ pr ∈ runBackoff outcomes 0,
      1 ≤ pr.1 ∧ pr.1 ≤ 5 ∧ pr.2 = backoffWait pr.1 ∧ pr.2 ≤ 60) ∧
    ((∀ o ∈ outcomes, o = false) → (runBackoff outcomes 0).length ≤ 5) ∧
    runBackoff (List.replicate 5 false) 0 = [(1, 4), (2, 8), (3, 16), (4, 32), (5, 60)] := by
  refine ⟨runBackoff_entries outcomes 0 (by norm_num), ?_, ?_⟩
  · intro hall
    have := runBackoff_failures_length outcomes 0 hall
    omega
  · with_unfolding_all decide

/-- Witness for C8: seven straight failures still yield at most five
backoff sleeps. -/
theorem c8_backoff_bounded_witness :
    (runBackoff (List.replicate 7 false) 0).length ≤ 5 :=
  (c8_backoff_bounded (List.replicate 7 false)).2.1
    (fun o ho => List.eq_of_mem_replicate ho)

/-! ## Claims C6 and C10: stop-loss monitor lemmas -/

theorem slStepHit_some {r : Except Unit (Option StopLossHit)} {h : StopLossHit}
    (hr : slStepHit r = some h) : r = .ok (some h) := by
  cases r with
  | error e => exact absurd hr (by simp [slStepHit])
  | ok o =>
    simp only [slStepHit] at hr
    rw [hr]

theorem checkSymbolStopLoss_symbol {trades : List Trade} {prices : String → ℚ}
    {s : String} {h : StopLossHit}
    (hs : checkSymbolStopLoss trades prices s = .ok (some h)) : h.symbol = s := by
  simp only [checkSymbolStopLoss] at hs
  repeat' split at hs
  all_goals
    first
      | (injection hs with h1; injection h1 with h2; subst h2; rfl)
      | (injection hs with h1; injection h1)
      | (injection hs)

theorem checkSymbolStopLoss_fields {trades : List Trade} {prices : String → ℚ}
    {s : String} {rt : Trade} {h : StopLossHit}
    (hrt : firstMaxByEntryTime (openTradesFor trades s) = some rt)
    (hs : checkSymbolStopLoss trades prices s = .ok (some h)) :
    h.sl_price = rt.sl ∧ h.entry_price = rt.entry_price := by
  simp only [checkSymbolStopLoss, hrt] at hs
  repeat' split at hs
  all_goals
    first
      | (injection hs with h1; injection h1 with h2; subst h2; exact ⟨rfl, rfl⟩)
      | (injection hs with h1; injection h1)
      | (injection hs)

theorem slStepRaises_false {trades : List Trade} {prices : String → ℚ}
    {s' : String}
    (h : ∀ rt', firstMaxByEntryTime (openTradesFor trades s') = some rt' →
      rt'.entry_price ≠ 0) :
    slStepRaises (checkSymbolStopLoss trades prices s') = false := by
  simp only [checkSymbolStopLoss]
  split
  · rfl
  · split
    · rfl
    · next rt' heq =>
      have hne := h rt' heq
      repeat' split
      all_goals simp_all [slStepRaises]

theorem openTradesFor_ne_nil {trades : List Trade} {s : String}
    (hq : netPosition trades s ≠ 0) : openTradesFor trades s ≠ [] := by
  intro he
  apply hq
  unfold netPosition
  rw [he]
  rfl

theorem mem_symbolsWithPositions {trades : List Trade} {s : String}
    (hq : netPosition trades s ≠ 0) : s ∈ symbolsWithPositions trades := by
  unfold symbolsWithPositions
  rw [List.mem_filter]
  constructor
  · rw [List.mem_dedup, List.mem_map]
    rcases List.exists_mem_of_ne_nil _ (openTradesFor_ne_nil hq) with ⟨t, ht⟩
    unfold openTradesFor at ht
    rw [List.mem_filter] at ht
    refine ⟨t, ht.1, ?_⟩
    have := ht.2
    simpa using this
  · simpa using hq

theorem check_filter_ne_nil_iff {trades : List Trade} {prices : String → ℚ}
    {s : String} :
    ((check_stop_losses trades prices).filter
        (fun h => decide (h.symbol = s)) ≠ []) ↔
      (slRaises trades prices = false ∧ s ∈ symbolsWithPositions trades ∧
        ∃ h, checkSymbolStopLoss trades prices s = .ok (some h)) := by
  cases hr : slRaises trades prices with
  | true => simp [check_stop_losses, hr]
  | false =>
    have hck : check_stop_losses trades prices
        = (symbolsWithPositions trades).filterMap
            (fun s => slStepHit (checkSymbolStopLoss trades prices s)) := by
      simp [check_stop_losses, hr]
    rw [hck]
    constructor
    · intro hne
      obtain ⟨h, hh⟩ := List.exists_mem_of_ne_nil _ hne
      rw [List.mem_filter] at hh
      obtain ⟨hmem, hsy⟩ := hh
      simp only [decide_eq_true_eq] at hsy
      rcases List.mem_filterMap.mp hmem with ⟨s', hs', hcs⟩
      have hok := slStepHit_some hcs
      have hsym := checkSymbolStopLoss_symbol hok
      have hss : s' = s := by rw [← hsym, hsy]
      subst hss
      exact ⟨rfl, hs', ⟨h, hok⟩⟩
    · rintro ⟨-, hmem, h, hch⟩
      intro hnil
      have hin : h ∈ ((symbolsWithPositions trades).filterMap
          (fun s => slStepHit (checkSymbolStopLoss trades prices s))).filter
          (fun x => decide (x.symbol = s)) := by
        rw [List.mem_filter]
        refine ⟨List.mem_filterMap.mpr ⟨s, hmem, ?_⟩, ?_⟩
        · rw [hch]
          rfl
        · simp [checkSymbolStopLoss_symbol hch]
      rw [hnil] at hin
      exact absurd hin (List.not_mem_nil h)

theorem checkSymbolStopLoss_some_iff {trades : List Trade} {prices : String → ℚ}
    {s : String} {rt : Trade}
    (hrt : firstMaxByEntryTime (openTradesFor trades s) = some rt)
    (hp : prices s ≠ 0) (he : rt.entry_price ≠ 0) :
    (∃ h, checkSymbolStopLoss trades prices s = .ok (some h)) ↔
      ((0 < netPosition trades s ∧ prices s ≤ rt.sl) ∨
       (netPosition trades s < 0 ∧ rt.sl ≤ prices s)) := by
  simp only [checkSymbolStopLoss, hrt]
  rw [if_neg hp]
  by_cases h1 : 0 < netPosition trades s
  · rw [if_pos h1]
    by_cases h2 : prices s ≤ rt.sl
    · rw [if_pos h2, if_neg he]
      exact ⟨fun _ => Or.inl ⟨h1, h2⟩, fun _ => ⟨_, rfl⟩⟩
    · rw [if_neg h2]
      constructor
      · rintro ⟨h, hh⟩
        exact absurd hh (by simp)
      · rintro (⟨_, hc⟩ | ⟨hneg, _⟩)
        · exact absurd hc h2
        · omega
  · rw [if_neg h1]
    by_cases h3 : netPosition trades s < 0
    · rw [if_pos h3]
      by_cases h4 : rt.sl ≤ prices s
      · rw [if_pos h4, if_neg he]
        exact ⟨fun _ => Or.inr ⟨h3, h4⟩, fun _ => ⟨_, rfl⟩⟩
      · rw [if_neg h4]
        constructor
        · rintro ⟨h, hh⟩
          exact absurd hh (by simp)
        · rintro (⟨hc, _⟩ | ⟨_, hc⟩)
          · exact absurd hc h1
          · exact absurd hc h4
    · rw [if_neg h3]
      constructor
      · rintro ⟨h, hh⟩
        exact absurd hh (by simp)
      · rintro (⟨hc, _⟩ | ⟨hc, _⟩)
        · exact absurd hc h1
        · exact absurd hc h3

/-! ## Claim C6 -/

/-- C6 counterexample: one open long trade with entry price 0 and stop
level 97, current price 96.  The net position is positive, the price is
available (non-zero) and lies at or below the stop level, so the claim
demands a reported hit; but the loss-percentage computation divides by
the zero entry price, the resulting `ZeroDivisionError` reaches the
function-level `except`, and `check_stop_losses` returns no alerts at
all. -/
theorem c6_counterexample :
    netPosition [⟨"TCS", "BUY", 0, 1, 97, "OPEN", "2024-01-01T10:00:00"⟩] "TCS" = 1 ∧
    (fun sym => if sym = "TCS" then (96 : ℚ) else 0) "TCS" = 96 ∧
    firstMaxByEntryTime (openTradesFor
      [⟨"TCS", "BUY", 0, 1, 97, "OPEN", "2024-01-01T10:00:00"⟩] "TCS")
      = some ⟨"TCS", "BUY", 0, 1, 97, "OPEN", "2024-01-01T10:00:00"⟩ ∧
    (96 : ℚ) ≤ 97 ∧
    check_stop_losses [⟨"TCS", "BUY", 0, 1, 97, "OPEN", "2024-01-01T10:00:00"⟩]
      (fun sym => if sym = "TCS" then 96 else 0) = [] := by
  with_unfolding_all decide

/-- C6 amended: provided the most recent open trade of every monitored
symbol has a non-zero entry price (otherwise the loss-percentage
computation raises `ZeroDivisionError` and the function-level `except`
makes the whole check return no alerts), a symbol with non-zero net
position and a non-zero fetched price gets an alert iff the position is
long and the price is at or below the stop level of its most recent
open trade (boundary inclusive), or short and the price is at or above
it; a symbol whose price lookup yields no data (modelled by the
`get(symbol, 0)` default of 0) is skipped without an alert. -/
theorem c6_stop_loss_iff (trades : List Trade) (prices : String → ℚ)
    (s : String) (rt : Trade)
    (hq : netPosition trades s ≠ 0)
    (hrt : firstMaxByEntryTime (openTradesFor trades s) = some rt)
    (hsafe : ∀ s' ∈ symbolsWithPositions trades, ∀ rt',
      firstMaxByEntryTime (openTradesFor trades s') = some rt' →
        rt'.entry_price ≠ 0) :
    (prices s ≠ 0 →
      (((check_stop_losses trades prices).filter
          (fun h => decide (h.symbol = s))) ≠ [] ↔
        ((0 < netPosition trades s ∧ prices s ≤ rt.sl) ∨
         (netPosition trades s < 0 ∧ rt.sl ≤ prices s)))) ∧
    (prices s = 0 →
      ((check_stop_losses trades prices).filter
          (fun h => decide (h.symbol = s))) = []) := by
  have hnr : slRaises trades prices = false := by
    unfold slRaises
    rw [List.any_eq_false]
    intro s' hmem
    simp [slStepRaises_false (fun rt' heq => hsafe s' hmem rt' heq)]
  have he : rt.entry_price ≠ 0 := hsafe s (mem_symbolsWithPositions hq) rt hrt
  constructor
  · intro hp
    rw [check_filter_ne_nil_iff]
    constructor
    · rintro ⟨-, -, hex⟩
      exact (checkSymbolStopLoss_some_iff hrt hp he).mp hex
    · intro hcond
      exact ⟨hnr, mem_symbolsWithPositions hq,
        (checkSymbolStopLoss_some_iff hrt hp he).mpr hcond⟩
  · intro hp
    rw [List.filter_eq_nil_iff]
    intro h hmem
    simp only [decide_eq_true_eq]
    intro heq
    unfold check_stop_losses at hmem
    split at hmem
    · exact absurd hmem (List.not_mem_nil h)
    · rcases List.mem_filterMap.mp hmem with ⟨s', _, hcs⟩
      have hok := slStepHit_some hcs
      have hsym := checkSymbolStopLoss_symbol hok
      have hss : s' = s := by rw [← hsym, heq]
      subst hss
      simp only [checkSymbolStopLoss] at hok
      rw [if_pos hp] at hok
      exact absurd hok (by simp)

/-- Witness for the amended C6: one open long trade (entry 100, stop
97), current price 96 ≤ 97: an alert is raised for the symbol. -/
theorem c6_stop_loss_iff_witness :
    ((check_stop_losses
        [⟨"TCS", "BUY", 100, 1, 97, "OPEN", "2024-01-01T10:00:00"⟩]
        (fun sym => if sym = "TCS" then 96 else 0)).filter
      (fun h => decide (h.symbol = "TCS"))) ≠ [] :=
  ((c6_stop_loss_iff
      [⟨"TCS", "BUY", 100, 1, 97, "OPEN", "2024-01-01T10:00:00"⟩]
      (fun sym => if sym = "TCS" then 96 else 0) "TCS"
      ⟨"TCS", "BUY", 100, 1, 97, "OPEN", "2024-01-01T10:00:00"⟩
      (by with_unfolding_all decide)
      (by with_unfolding_all decide)
      (by
        intro s' hmem rt' heq
        rw [show symbolsWithPositions
            [(⟨"TCS", "BUY", 100, 1, 97, "OPEN", "2024-01-01T10:00:00"⟩ : Trade)]
            = ["TCS"] from by with_unfolding_all decide] at hmem
        have hs' : s' = "TCS" := by simpa using hmem
        subst hs'
        rw [show firstMaxByEntryTime (openTradesFor
            [(⟨"TCS", "BUY", 100, 1, 97, "OPEN", "2024-01-01T10:00:00"⟩ : Trade)] "TCS")
            = some ⟨"TCS", "BUY", 100, 1, 97, "OPEN", "2024-01-01T10:00:00"⟩
          from by with_unfolding_all decide] at heq
        injection heq with heq'
        rw [← heq']
        with_unfolding_all decide)).1
    (by with_unfolding_all decide)).mpr
    (Or.inl ⟨by with_unfolding_all decide, by with_unfolding_all decide⟩)

/-! ## Claim C10 -/

theorem adjustOne_status (s c : String) (g : ℚ → ℚ) (t : Trade) :
    (adjustOne s c g t).status = t.status := by
  unfold adjustOne
  split_ifs <;> rfl

theorem adjustOne_symbol (s c : String) (g : ℚ → ℚ) (t : Trade) :
    (adjustOne s c g t).symbol = t.symbol := by
  unfold adjustOne
  split_ifs <;> rfl

theorem adjustOne_entry_time (s c : String) (g : ℚ → ℚ) (t : Trade) :
    (adjustOne s c g t).entry_time = t.entry_time := by
  unfold adjustOne
  split_ifs <;> rfl

theorem signedQty_adjustOne (s c : String) (g : ℚ → ℚ) (t : Trade) :
    signedQty (adjustOne s c g t) = signedQty t := by
  unfold signedQty adjustOne
  split_ifs <;> rfl

theorem get_open_trades_adjust (s c : String) (g : ℚ → ℚ) (trades : List Trade) :
    get_open_trades (adjustOlderSl s c g trades)
      = (get_open_trades trades).map (adjustOne s c g) := by
  unfold get_open_trades adjustOlderSl
  rw [List.filter_map]
  congr 1
  apply List.filter_congr
  intro t _
  simp [Function.comp, adjustOne_status]

theorem openTradesFor_adjust (s c : String) (g : ℚ → ℚ) (trades : List Trade)
    (s' : String) :
    openTradesFor (adjustOlderSl s c g trades) s'
      = (openTradesFor trades s').map (adjustOne s c g) := by
  unfold openTradesFor
  rw [get_open_trades_adjust, List.filter_map]
  congr 1
  apply List.filter_congr
  intro t _
  simp [Function.comp, adjustOne_symbol]

theorem netPosition_adjust (s c : String) (g : ℚ → ℚ) (trades : List Trade)
    (s' : String) :
    netPosition (adjustOlderSl s c g trades) s' = netPosition trades s' := by
  unfold netPosition
  rw [openTradesFor_adjust, List.map_map]
  congr 1
  apply List.map_congr_left
  intro t _
  simp [Function.comp, signedQty_adjustOne]

theorem symbolsWithPositions_adjust (s c : String) (g : ℚ → ℚ)
    (trades : List Trade) :
    symbolsWithPositions (adjustOlderSl s c g trades) = symbolsWithPositions trades := by
  unfold symbolsWithPositions
  rw [get_open_trades_adjust, List.map_map]
  have hmap : ((fun t : Trade => t.symbol) ∘ adjustOne s c g)
      = (fun t : Trade => t.symbol) := by
    funext t
    simp [Function.comp, adjustOne_symbol]
  rw [hmap]
  apply List.filter_congr
  intro x _
  simp [netPosition_adjust]

theorem foldl_maxBy_adjust (s c : String) (g : ℚ → ℚ) (l : List Trade) :
    ∀ t0 : Trade,
      (l.map (adjustOne s c g)).foldl
          (fun acc x => if acc.entry_time < x.entry_time then x else acc)
          (adjustOne s c g t0)
        = adjustOne s c g
            (l.foldl (fun acc x => if acc.entry_time < x.entry_time then x else acc) t0) := by
  induction l with
  | nil => intro t0; rfl
  | cons a l ih =>
    intro t0
    simp only [List.map_cons, List.foldl_cons]
    have hsel : (if (adjustOne s c g t0).entry_time < (adjustOne s c g a).entry_time
        then adjustOne s c g a else adjustOne s c g t0)
        = adjustOne s c g (if t0.entry_time < a.entry_time then a else t0) := by
      rw [adjustOne_entry_time, adjustOne_entry_time]
      split_ifs <;> rfl
    rw [hsel, ih]

theorem firstMax_adjust (s c : String) (g : ℚ → ℚ) (trades : List Trade)
    (s' : String) :
    firstMaxByEntryTime (openTradesFor (adjustOlderSl s c g trades) s')
      = (firstMaxByEntryTime (openTradesFor trades s')).map (adjustOne s c g) := by
  rw [openTradesFor_adjust]
  cases openTradesFor trades s' with
  | nil => rfl
  | cons t ts =>
    simp only [List.map_cons, firstMaxByEntryTime, Option.map_some']
    rw [foldl_maxBy_adjust]

theorem adjustOne_self (s : String) (g : ℚ → ℚ) (rt : Trade) :
    adjustOne s rt.entry_time g rt = rt := by
  unfold adjustOne
  rw [if_neg]
  rintro ⟨_, _, hlt⟩
  exact lt_irrefl _ hlt

theorem firstMax_adjust_self {trades : List Trade} {s : String} {rt : Trade}
    (g : ℚ → ℚ)
    (hrt : firstMaxByEntryTime (openTradesFor trades s) = some rt) :
    firstMaxByEntryTime
      (openTradesFor (adjustOlderSl s rt.entry_time g trades) s) = some rt := by
  rw [firstMax_adjust, hrt, Option.map_some', adjustOne_self]

theorem adjustOne_id_of_symbol_ne {s c : String} {g : ℚ → ℚ} {t : Trade}
    (h : t.symbol ≠ s) : adjustOne s c g t = t := by
  unfold adjustOne
  rw [if_neg]
  rintro ⟨-, h2, -⟩
  exact h h2

theorem openTradesFor_adjust_ne (s c : String) (g : ℚ → ℚ)
    (trades : List Trade) {s' : String} (hne : s' ≠ s) :
    openTradesFor (adjustOlderSl s c g trades) s' = openTradesFor trades s' := by
  rw [openTradesFor_adjust]
  have hid : ∀ t ∈ openTradesFor trades s', adjustOne s c g t = t := by
    intro t ht
    apply adjustOne_id_of_symbol_ne
    unfold openTradesFor at ht
    rw [List.mem_filter] at ht
    have ht2 := ht.2
    simp only [decide_eq_true_eq] at ht2
    rw [ht2]
    exact hne
  calc (openTradesFor trades s').map (adjustOne s c g)
      = (openTradesFor trades s').map id := List.map_congr_left hid
    _ = openTradesFor trades s' := List.map_id _

theorem checkSymbolStopLoss_adjust_ne {trades : List Trade}
    {prices : String → ℚ} (s c : String) (g : ℚ → ℚ) {s' : String}
    (hne : s' ≠ s) :
    checkSymbolStopLoss (adjustOlderSl s c g trades) prices s'
      = checkSymbolStopLoss trades prices s' := by
  simp only [checkSymbolStopLoss, netPosition_adjust,
    openTradesFor_adjust_ne s c g trades hne]

theorem slStepRaises_adjust {trades : List Trade} {prices : String → ℚ}
    {s : String} {rt : Trade} (g : ℚ → ℚ)
    (hrt : firstMaxByEntryTime (openTradesFor trades s) = some rt) :
    slStepRaises (checkSymbolStopLoss (adjustOlderSl s rt.entry_time g trades) prices s)
      = slStepRaises (checkSymbolStopLoss trades prices s) := by
  have hrt' := firstMax_adjust_self g hrt
  simp only [checkSymbolStopLoss, hrt, hrt', netPosition_adjust]
  split_ifs <;> rfl

theorem checkSymbolStopLoss_adjust_exists_iff {trades : List Trade}
    {prices : String → ℚ} {s : String} {rt : Trade} (g : ℚ → ℚ)
    (hrt : firstMaxByEntryTime (openTradesFor trades s) = some rt) :
    ((∃ h, checkSymbolStopLoss (adjustOlderSl s rt.entry_time g trades) prices s
        = .ok (some h)) ↔
     (∃ h, checkSymbolStopLoss trades prices s = .ok (some h))) := by
  have hrt' := firstMax_adjust_self g hrt
  simp only [checkSymbolStopLoss, hrt, hrt', netPosition_adjust]
  split_ifs <;> simp

theorem list_any_congr {α : Type} {p q : α → Bool} :
    ∀ {l : List α}, (∀ x ∈ l, p x = q x) → l.any p = l.any q := by
  intro l
  induction l with
  | nil => intro _; rfl
  | cons a l ih =>
    intro h
    simp only [List.any_cons]
    rw [h a (List.mem_cons_self a l),
      ih (fun x hx => h x (List.mem_cons_of_mem a hx))]

theorem slRaises_adjust {trades : List Trade} {prices : String → ℚ}
    {s : String} {rt : Trade} (g : ℚ → ℚ)
    (hrt : firstMaxByEntryTime (openTradesFor trades s) = some rt) :
    slRaises (adjustOlderSl s rt.entry_time g trades) prices
      = slRaises trades prices := by
  unfold slRaises
  rw [symbolsWithPositions_adjust]
  apply list_any_congr
  intro s' _
  by_cases hss : s' = s
  · subst hss
    exact slStepRaises_adjust g hrt
  · rw [checkSymbolStopLoss_adjust_ne s rt.entry_time g hss]

/-- C10: the stop-loss decision for a symbol is made solely against the
most recent open trade (maximal `entry_time`): every reported hit for
the symbol carries that trade's stop level and entry price, and
rewriting the stop levels of all strictly older open trades of the
symbol (by an arbitrary function `g`) leaves the alert decision
unchanged — older trades' stop levels can never trigger an alert. -/
theorem c10_most_recent_only (trades : List Trade) (prices : String → ℚ)
    (s : String) (rt : Trade) (g : ℚ → ℚ)
    (hrt : firstMaxByEntryTime (openTradesFor trades s) = some rt) :
    (∀ h ∈ check_stop_losses trades prices, h.symbol = s →
        h.sl_price = rt.sl ∧ h.entry_price = rt.entry_price) ∧
    (((check_stop_losses (adjustOlderSl s rt.entry_time g trades) prices).filter
        (fun h => decide (h.symbol = s)) ≠ []) ↔
      ((check_stop_losses trades prices).filter
        (fun h => decide (h.symbol = s)) ≠ [])) := by
  constructor
  · intro h hmem hsym
    unfold check_stop_losses at hmem
    split at hmem
    · exact absurd hmem (List.not_mem_nil h)
    · rcases List.mem_filterMap.mp hmem with ⟨s', _, hcs⟩
      have hok := slStepHit_some hcs
      have hs' : s' = s := by rw [← checkSymbolStopLoss_symbol hok, hsym]
      subst hs'
      exact checkSymbolStopLoss_fields hrt hok
  · rw [check_filter_ne_nil_iff, check_filter_ne_nil_iff, symbolsWithPositions_adjust,
      slRaises_adjust g hrt, checkSymbolStopLoss_adjust_exists_iff g hrt]

/-- Witness for C10: two open long trades for one symbol; pushing the
older trade's stop level to 1000 (far above the price) does not change
the alert decision, which is governed by the newer trade alone. -/
theorem c10_most_recent_only_witness :
    ((check_stop_losses (adjustOlderSl "TCS" "2024-01-02T10:00:00" (fun _ => 1000)
        [⟨"TCS", "BUY", 100, 1, 90, "OPEN", "2024-01-01T10:00:00"⟩,
         ⟨"TCS", "BUY", 110, 1, 95, "OPEN", "2024-01-02T10:00:00"⟩])
        (fun sym => if sym = "TCS" then 92 else 0)).filter
          (fun h => decide (h.symbol = "TCS")) ≠ []) ↔
    ((check_stop_losses
        [⟨"TCS", "BUY", 100, 1, 90, "OPEN", "2024-01-01T10:00:00"⟩,
         ⟨"TCS", "BUY", 110, 1, 95, "OPEN", "2024-01-02T10:00:00"⟩]
        (fun sym => if sym = "TCS" then 92 else 0)).filter
          (fun h => decide (h.symbol = "TCS")) ≠ []) :=
  (c10_most_recent_only
    [⟨"TCS", "BUY", 100, 1, 90, "OPEN", "2024-01-01T10:00:00"⟩,
     ⟨"TCS", "BUY", 110, 1, 95, "OPEN", "2024-01-02T10:00:00"⟩]
    (fun sym => if sym = "TCS" then 92 else 0) "TCS"
    ⟨"TCS", "BUY", 110, 1, 95, "OPEN", "2024-01-02T10:00:00"⟩ (fun _ => 1000)
    (by with_unfolding_all decide)).2

end NseWire
